import Mathlib

/-!
Verification of the NeuraNotes hybrid retrieval engine.

The definitions below are a shallow embedding of the JavaScript source:
`mergeAndScore`, `hybridSearch` and its fallback cascade
(lib/hybridSearch.js), the `useHybridSearch` hook (debounce, cancellation,
publication of search outcomes), and `weightedSearch`.  JavaScript numbers
are modelled as rationals, external store/service calls as an explicit
environment of oracle responses, and the async control flow as explicit
state passing with an event trace of the external calls that were made.
-/

/-- A row returned by the full-text-search executor (`performFTSSearch`):
`id, document_id, chunk`.  Rows produced by `performDocumentSearch` are
converted by the source into this same shape, so they share the type. -/
structure FTSMatch where
  id : Nat
  document_id : Nat
  chunk : String
deriving Repr, DecidableEq

/-- A row returned by the vector-search executor (`performVectorSearch`):
`id, document_id, chunk, similarity`. -/
structure VectorMatch where
  id : Nat
  document_id : Nat
  chunk : String
  similarity : ℚ
deriving Repr, DecidableEq

/-- An entry of the fused result list built by `mergeAndScore`:
`id, document_id, chunk, fts_score, vector_score, hybrid_score`. -/
structure FusedResult where
  id : Nat
  document_id : Nat
  chunk : String
  fts_score : ℚ
  vector_score : ℚ
  hybrid_score : ℚ
deriving Repr, DecidableEq

/-- One step of `Array.prototype.sort` with comparator
`(a, b) => b.hybrid_score - a.hybrid_score`, modelled as the stable
descending insertion of `x` into an already sorted list (JavaScript's
sort is stable, so the stable sort is the unique result). -/
def insertDesc (x : FusedResult) : List FusedResult → List FusedResult
  | [] => [x]
  | y :: ys => if y.hybrid_score ≤ x.hybrid_score then x :: y :: ys else y :: insertDesc x ys

/-- Stable sort by `hybrid_score` descending, the effect of
`.sort((a, b) => b.hybrid_score - a.hybrid_score)` in the source. -/
def sortByHybridDesc : List FusedResult → List FusedResult
  | [] => []
  | x :: xs => insertDesc x (sortByHybridDesc xs)

/-- `resultMap.set(v.id, v)` on a JavaScript `Map` represented as its list
of values in insertion order: replace the entry with the same key in
place, or append a fresh entry at the end. -/
def setKeyed (l : List FusedResult) (v : FusedResult) : List FusedResult :=
  if l.any (fun x => x.id == v.id) then
    l.map (fun x => if x.id == v.id then v else x)
  else l ++ [v]

/-- The `ftsResults.forEach((result, index) => ...)` seeding loop of
`mergeAndScore`: rank-decay score, `vector_score: 0`,
`hybrid_score: ftsWeight * ftsScore`. `N` is `ftsResults.length`. -/
def seedFTS (ftsWeight : ℚ) (N : Nat) (acc : List FusedResult) :
    List (Nat × FTSMatch) → List FusedResult
  | [] => acc
  | (i, r) :: rest =>
      let ftsScore := max 0 (1 - (i : ℚ) / (N : ℚ))
      seedFTS ftsWeight N
        (setKeyed acc ⟨r.id, r.document_id, r.chunk, ftsScore, 0, ftsWeight * ftsScore⟩) rest

/-- The `vectorResults.forEach((result) => ...)` loop body of
`mergeAndScore`: update the existing entry's `vector_score` and
`hybrid_score` in place, or append a new vector-only entry. -/
def vecStep (ftsWeight vectorWeight : ℚ) (acc : List FusedResult) (v : VectorMatch) :
    List FusedResult :=
  let vectorScore := v.similarity
  if acc.any (fun x => x.id == v.id) then
    acc.map (fun x =>
      if x.id == v.id then
        { x with vector_score := vectorScore,
                 hybrid_score := ftsWeight * x.fts_score + vectorWeight * vectorScore }
      else x)
  else acc ++ [⟨v.id, v.document_id, v.chunk, 0, vectorScore, vectorWeight * vectorScore⟩]

/-- `mergeAndScore(ftsResults, vectorResults, ftsWeight, vectorWeight)`
from the source: seed FTS results into a map keyed by id, merge vector
results, then sort the map's values by hybrid score descending. -/
def mergeAndScore (ftsResults : List FTSMatch) (vectorResults : List VectorMatch)
    (ftsWeight vectorWeight : ℚ) : List FusedResult :=
  let seeded := seedFTS ftsWeight ftsResults.length [] ftsResults.enum
  let merged := vectorResults.foldl (vecStep ftsWeight vectorWeight) seeded
  sortByHybridDesc merged

/-- A partial fusion entry of the specification's algorithm (steps 1-2 of
section 4.5): scores before the hybrid score is computed. -/
structure SpecEntry where
  id : Nat
  document_id : Nat
  chunk : String
  lexicalScore : ℚ
  vectorScore : ℚ
deriving Repr, DecidableEq

/-- Keyed insertion for `SpecEntry` ("a result keyed by passage id"). -/
def specSetKeyed (l : List SpecEntry) (v : SpecEntry) : List SpecEntry :=
  if l.any (fun x => x.id == v.id) then
    l.map (fun x => if x.id == v.id then v else x)
  else l ++ [v]

/-- Step 1 of the specification's fusion algorithm: for each lexical
match at rank `r` out of `N`, seed a result keyed by passage id with
`lexicalScore = max(0, 1 - r/N)` and `vectorScore = 0`. -/
def specSeed (N : Nat) (acc : List SpecEntry) : List (Nat × FTSMatch) → List SpecEntry
  | [] => acc
  | (r, m) :: rest =>
      specSeed N
        (specSetKeyed acc ⟨m.id, m.document_id, m.chunk, max 0 (1 - (r : ℚ) / (N : ℚ)), 0⟩) rest

/-- Step 2 of the specification's fusion algorithm: for each vector
match set `vectorScore = vectorSimilarity`, updating the entry with the
same passage id in place when it exists and otherwise inserting a new
entry with `lexicalScore = 0`. -/
def specVecStep (acc : List SpecEntry) (v : VectorMatch) : List SpecEntry :=
  if acc.any (fun x => x.id == v.id) then
    acc.map (fun x => if x.id == v.id then { x with vectorScore := v.similarity } else x)
  else acc ++ [⟨v.id, v.document_id, v.chunk, 0, v.similarity⟩]

/-- Step 3 of the specification's fusion algorithm: for every result
compute `hybridScore = lexicalWeight*lexicalScore + vectorWeight*vectorScore`. -/
def specScore (lexicalWeight vectorWeight : ℚ) (e : SpecEntry) : FusedResult :=
  ⟨e.id, e.document_id, e.chunk, e.lexicalScore, e.vectorScore,
   lexicalWeight * e.lexicalScore + vectorWeight * e.vectorScore⟩

/-- `fuse(lexicalMatches, vectorMatches, lexicalWeight, vectorWeight)` as
written in section 4.5 of the specification: seed lexical matches
(step 1), merge vector matches (step 2), compute every hybrid score
(step 3), sort by hybrid score descending (step 4, ties broken by stable
input order). -/
def fuse (L : List FTSMatch) (V : List VectorMatch) (lexicalWeight vectorWeight : ℚ) :
    List FusedResult :=
  sortByHybridDesc
    ((V.foldl specVecStep (specSeed L.length [] L.enum)).map (specScore lexicalWeight vectorWeight))

/-- The result of a JavaScript call wrapped in try/catch: either a value
or the message of the thrown error. -/
inductive CallRes (α : Type) where
  | ok (val : α)
  | err (msg : String)
deriving Repr, DecidableEq

/-- The options object taken by `hybridSearch`, with the source's
destructuring defaults. -/
structure SearchOptions where
  documentId : Option Nat := none
  limit : Nat := 10
  ftsWeight : ℚ := 1/2
  vectorWeight : ℚ := 1/2
  useSupabaseFunction : Bool := true
  fallbackToFTSOnly : Bool := true
deriving Repr, DecidableEq

/-- The object returned by `hybridSearch`.  The source's error return
carries no `method` key and the success returns no `error` key, so both
fields are `Option`s. -/
structure SearchOutcome where
  success : Bool
  query : String
  results : List FusedResult
  total : Nat
  method : Option String
  error : Option String
deriving Repr, DecidableEq

/-- The external calls `hybridSearch` can issue, recorded as a trace. -/
inductive ExtCall where
  | embed
  | fts
  | docSearch
  | vector
  | supaFn
deriving Repr, DecidableEq

/-- Oracle responses of the external services for one search attempt:
what each store/service call returns (after the catch-and-degrade
handling inside `performFTSSearch`, `performDocumentSearch` and
`performVectorSearch`, which convert store errors into empty lists;
`generateQueryEmbedding` and `performSupabaseHybridSearch` rethrow, so
their entries can be errors). -/
structure SearchEnv where
  embedRes : CallRes Unit
  ftsResults : List FTSMatch
  docResults : List FTSMatch
  vectorResults : List VectorMatch
  supaResults : CallRes (List FusedResult)
deriving Repr, DecidableEq

/-- The empty-query guard of `hybridSearch`
(`!query || typeof query !== 'string' || query.trim().length === 0`).
`trim` strips leading and trailing whitespace, so for a string value the
guard holds exactly when every character is whitespace — which covers
the empty string, the falsy `!query` case. -/
def isBlankQuery (query : String) : Bool := query.data.all Char.isWhitespace

/-- The formatting applied on the embedding-failure fallback path
(lexical or document results): rank-decay `fts_score`, `vector_score: 0`
and `hybrid_score` set to the same rank-decay value. -/
def formatFallbackResults (l : List FTSMatch) : List FusedResult :=
  l.enum.map (fun p =>
    ⟨p.2.id, p.2.document_id, p.2.chunk,
     max 0 (1 - (p.1 : ℚ) / (l.length : ℚ)), 0,
     max 0 (1 - (p.1 : ℚ) / (l.length : ℚ))⟩)

/-- `hybridSearch(query, options)` from the source, as a function of the
oracle environment, returning the outcome together with the trace of
external calls made.  Notes on fidelity:
* the empty-query guard returns at once with `query: ''` and no calls;
* a failed embedding rethrows when `fallbackToFTSOnly` is false
  (caught by the outer catch, which returns `success: false` with no
  `method` key), and otherwise runs FTS, then document search only if
  FTS returned nothing;
* on the embedded path with `useSupabaseFunction` true, a failure of the
  Supabase RPC reaches `useSupabaseFunction = false`, an assignment to a
  `const` binding, whose TypeError ("Assignment to constant variable.")
  propagates to the outer catch instead of falling back to the
  JavaScript merge;
* with `useSupabaseFunction` false, FTS runs first, document search
  replaces its output only when FTS returned nothing, vector search
  always runs, and the merged list is truncated to `limit`. -/
def hybridSearch (query : String) (opts : SearchOptions) (env : SearchEnv) :
    SearchOutcome × List ExtCall :=
  if isBlankQuery query then
    (⟨true, "", [], 0, some "empty_query", none⟩, [])
  else
    match env.embedRes with
    | .err msg =>
        if opts.fallbackToFTSOnly then
          if env.ftsResults.length = 0 then
            let formatted := formatFallbackResults env.docResults
            (⟨true, query, formatted, formatted.length,
               some (if 0 < env.docResults.length then "document_search_fallback"
                     else "no_results_found"), none⟩,
             [ExtCall.embed, ExtCall.fts, ExtCall.docSearch])
          else
            let formatted := formatFallbackResults env.ftsResults
            (⟨true, query, formatted, formatted.length,
               some (if 0 < env.ftsResults.length then "document_search_fallback"
                     else "no_results_found"), none⟩,
             [ExtCall.embed, ExtCall.fts])
        else
          (⟨false, query, [], 0, none, some msg⟩, [ExtCall.embed])
    | .ok _ =>
        if opts.useSupabaseFunction then
          match env.supaResults with
          | .ok rs =>
              let results := rs.take opts.limit
              (⟨true, query, results, results.length, some "supabase_function", none⟩,
               [ExtCall.embed, ExtCall.supaFn])
          | .err _ =>
              (⟨false, query, [], 0, none, some "Assignment to constant variable."⟩,
               [ExtCall.embed, ExtCall.supaFn])
        else
          if env.ftsResults.length = 0 then
            let merged := mergeAndScore env.docResults env.vectorResults
              opts.ftsWeight opts.vectorWeight
            let results := merged.take opts.limit
            (⟨true, query, results, results.length, some "javascript_merge", none⟩,
             [ExtCall.embed, ExtCall.fts, ExtCall.docSearch, ExtCall.vector])
          else
            let merged := mergeAndScore env.ftsResults env.vectorResults
              opts.ftsWeight opts.vectorWeight
            let results := merged.take opts.limit
            (⟨true, query, results, results.length, some "javascript_merge", none⟩,
             [ExtCall.embed, ExtCall.fts, ExtCall.vector])

/-- An entry of the list produced by `formatSearchResults`. -/
structure FormattedResult where
  id : Nat
  documentId : Nat
  text : String
  score : ℚ
  ftsScore : ℚ
  vectorScore : ℚ
  preview : String
deriving Repr, DecidableEq

/-- `formatSearchResults(results)` from the source, applied by the hook
before publishing.  On hook inputs every row is a `FusedResult`, so the
`|| result.similarity || 0` fallbacks collapse: when `hybrid_score` is
`0` (falsy) the missing `similarity` key yields `0` again, and likewise
for the score fields. -/
def formatSearchResults (results : List FusedResult) : List FormattedResult :=
  results.map (fun r =>
    ⟨r.id, r.document_id, r.chunk, r.hybrid_score, r.fts_score, r.vector_score,
     if 200 < r.chunk.length then (r.chunk.take 200).append "..." else r.chunk⟩)

/-- The `searchStats` state of the `useHybridSearch` hook. -/
structure SearchStats where
  total : Nat
  method : Option String
  duration : Nat
deriving Repr, DecidableEq

/-- The state held by the `useHybridSearch` hook: the published fields
(`isSearching`, `searchResults`, `searchQuery`, `searchError`,
`searchStats`), the abort-controller ref (`none` models `null`), and
the set of controllers whose `abort()` has been called, identified by a
numeric token per controller. -/
structure HookState where
  isSearching : Bool
  searchResults : List FormattedResult
  searchQuery : String
  searchError : Option String
  searchStats : SearchStats
  currentController : Option Nat
  abortedControllers : List Nat
deriving Repr, DecidableEq

/-- The hook's initial state. -/
def initialHookState : HookState :=
  ⟨false, [], "", none, ⟨0, none, 0⟩, none, []⟩

/-- The synchronous head of `performSearch(query, ...)` up to the
`await hybridSearch(...)` suspension point: the empty-query early
return, aborting the previous controller if one is current, storing a
fresh controller `k`, and the `setIsSearching(true)` /
`setSearchError(null)` updates. -/
def psStart (k : Nat) (query : String) (s : HookState) : HookState :=
  if isBlankQuery query then
    { s with searchResults := [], searchStats := ⟨0, none, 0⟩ }
  else
    { s with
      abortedControllers :=
        match s.currentController with
        | some c => c :: s.abortedControllers
        | none => s.abortedControllers,
      currentController := some k,
      isSearching := true,
      searchError := none }

/-- The continuation of `performSearch` after `await hybridSearch(...)`
resolves with `result` for the call whose argument was `query`.  The
abort check reads `searchAbortControllerRef.current?.signal.aborted` —
the controller that is current at resumption time, not the one this
invocation created.  After the check, a successful result is published
(formatted results, stats, the query text), a failed one is rethrown and
caught (`setSearchError`, cleared results and stats), and the `finally`
block runs `setIsSearching(false)` and nulls the controller ref. -/
def psResume (query : String) (result : SearchOutcome) (duration : Nat)
    (s : HookState) : HookState :=
  let abortedNow :=
    match s.currentController with
    | some c => s.abortedControllers.contains c
    | none => false
  if abortedNow then
    { s with isSearching := false, currentController := none }
  else if result.success then
    { s with
      searchResults := formatSearchResults result.results,
      searchStats := ⟨result.total, result.method, duration⟩,
      searchQuery := query,
      isSearching := false,
      currentController := none }
  else
    { s with
      searchError := some (result.error.getD "Search failed"),
      searchResults := [],
      searchStats := ⟨0, none, 0⟩,
      isSearching := false,
      currentController := none }

/-- The debounce timer slot of the hook (`debounceTimeoutRef`): the
query and options scheduled by the pending timeout, if any. -/
structure DebounceState where
  pending : Option (String × SearchOptions)
deriving Repr, DecidableEq

/-- Events of the debounced entry point: a call to `debouncedSearch`
(`submit`), or the expiry of the pending timeout (`fire`), which runs
`performSearch` with the stored arguments. -/
inductive DebounceEvent where
  | submit (query : String) (opts : SearchOptions)
  | fire
deriving Repr, DecidableEq

/-- One step of the debounce machine.  `debouncedSearch` clears any
existing timeout and schedules a new one with its own arguments; a
timeout expiry executes the stored search (appended to the execution
log) and empties the slot. -/
def debounceStep (s : DebounceState × List (String × SearchOptions))
    (e : DebounceEvent) : DebounceState × List (String × SearchOptions) :=
  match e with
  | .submit q o => (⟨some (q, o)⟩, s.2)
  | .fire =>
      match s.1.pending with
      | some c => (⟨none⟩, s.2 ++ [c])
      | none => (s.1, s.2)

/-- Run the debounce machine over a list of events, collecting the
searches that actually execute. -/
def runDebounce (s : DebounceState) (evs : List DebounceEvent) :
    DebounceState × List (String × SearchOptions) :=
  evs.foldl debounceStep (s, [])

/-- The weight normalization inside `weightedSearch`: divide each weight
by their sum when it is positive, else default both to `0.5`. -/
def normalizeWeights (ftsWeight vectorWeight : ℚ) : ℚ × ℚ :=
  let totalWeight := ftsWeight + vectorWeight
  (if 0 < totalWeight then ftsWeight / totalWeight else 1/2,
   if 0 < totalWeight then vectorWeight / totalWeight else 1/2)

/-- `weightedSearch(query, ftsWeight, vectorWeight, options)` up to its
call of `hybridSearch`: the pair of arguments that call receives (the
options spread with the normalized weights written over). -/
def weightedSearchCall (query : String) (ftsWeight vectorWeight : ℚ)
    (opts : SearchOptions) : String × SearchOptions :=
  let n := normalizeWeights ftsWeight vectorWeight
  (query, { opts with ftsWeight := n.1, vectorWeight := n.2 })

/-- Scenario A's lexical matches: one match with id 1. -/
def scnA_lex : List FTSMatch := [⟨1, 1, "AI is..."⟩]

/-- Scenario A's vector matches: id 1 with similarity 0.9 and id 2 with
similarity 0.6. -/
def scnA_vec : List VectorMatch := [⟨1, 1, "AI is...", 9/10⟩, ⟨2, 2, "chunk2", 6/10⟩]

/-- An environment where the embedding service fails and the lexical
executor returns two matches (Scenario B's shape). -/
def envLexOnly : SearchEnv :=
  ⟨.err "Failed to generate query embedding: fetch failed",
   [⟨1, 1, "AI is..."⟩, ⟨2, 1, "ML chunk"⟩], [], [], .ok []⟩

/-- An environment where embedding succeeds, the lexical executor
returns nothing, the document fallback finds one document (id 7) and
the vector executor returns one match (id 9). -/
def envDocWithVector : SearchEnv :=
  ⟨.ok (), [], [⟨7, 7, "Doc title"⟩], [⟨9, 9, "vec chunk", 4/5⟩], .ok []⟩

/-- An environment where everything succeeds and every store is empty. -/
def envEmbedOkEmpty : SearchEnv := ⟨.ok (), [], [], [], .ok []⟩

/-- Options selecting the JavaScript merge path. -/
def jsMergeOptions : SearchOptions := { useSupabaseFunction := false }

/-- Options that disable the FTS-only fallback, so an embedding failure
is rethrown. -/
def noFallbackOptions : SearchOptions := { fallbackToFTSOnly := false }

/-- The outcome search attempt A resolves with in the cancellation
scenario. -/
def outcomeA : SearchOutcome :=
  ⟨true, "alpha", [⟨1, 1, "Alpha chunk", 1, 0, 1⟩], 1, some "javascript_merge", none⟩

/-- The outcome search attempt B resolves with in the cancellation
scenario. -/
def outcomeB : SearchOutcome :=
  ⟨true, "beta", [⟨2, 2, "Beta chunk", 1, 0, 1⟩], 1, some "javascript_merge", none⟩

/-- The hook state after attempt B (submitted while A was in flight)
publishes its outcome. -/
def hookStateAfterB : HookState :=
  psResume "beta" outcomeB 5 (psStart 1 "beta" (psStart 0 "alpha" initialHookState))

/-- The hook state after superseded attempt A's call resolves last. -/
def hookStateAfterStaleA : HookState :=
  psResume "alpha" outcomeA 9 hookStateAfterB

/-- `specScore` leaves the passage id unchanged. -/
theorem specScore_id (wl wv : ℚ) (e : SpecEntry) : (specScore wl wv e).id = e.id := rfl

/-- `List.any` over a mapped list tests the composed predicate (general
version across two element types). -/
theorem any_map_general {α β : Type} (f : α → β) (p : β → Bool) (l : List α) :
    (l.map f).any p = l.any (fun x => p (f x)) := by
  induction l with
  | nil => rfl
  | cons a t ih => simp only [List.map_cons, List.any_cons, ih]

/-- Mapping `specScore` over a keyed insertion is the keyed insertion of
the mapped value. -/
theorem map_specSetKeyed (wl wv : ℚ) (l : List SpecEntry) (v : SpecEntry) :
    (specSetKeyed l v).map (specScore wl wv)
      = setKeyed (l.map (specScore wl wv)) (specScore wl wv v) := by
  unfold specSetKeyed setKeyed
  rw [any_map_general]
  simp only [specScore_id]
  by_cases h : l.any (fun x => x.id == v.id) = true
  · rw [if_pos h, if_pos h, List.map_map, List.map_map]
    apply List.map_congr_left
    intro e _
    by_cases he : e.id = v.id
    · simp [Function.comp, specScore, he]
    · simp [Function.comp, specScore, he]
  · rw [if_neg h, if_neg h, List.map_append]
    rfl

/-- Mapping `specScore` through one vector-merge step of the spec
algorithm gives the corresponding source `vecStep`. -/
theorem map_specVecStep (wl wv : ℚ) (l : List SpecEntry) (v : VectorMatch) :
    (specVecStep l v).map (specScore wl wv)
      = vecStep wl wv (l.map (specScore wl wv)) v := by
  unfold specVecStep vecStep
  rw [any_map_general]
  simp only [specScore_id]
  by_cases h : l.any (fun x => x.id == v.id) = true
  · rw [if_pos h, if_pos h, List.map_map, List.map_map]
    apply List.map_congr_left
    intro e _
    by_cases he : e.id = v.id
    · simp [Function.comp, specScore, he]
    · simp [Function.comp, specScore, he]
  · rw [if_neg h, if_neg h, List.map_append]
    simp [specScore]

/-- Mapping `specScore` through the spec's seeding loop gives the
source's seeding loop: the seeded hybrid score `ftsWeight * ftsScore`
agrees with step 3's `wl*lexicalScore + wv*0`. -/
theorem map_specSeed (wl wv : ℚ) (N : Nat) (ps : List (Nat × FTSMatch)) :
    ∀ acc : List SpecEntry,
      (specSeed N acc ps).map (specScore wl wv)
        = seedFTS wl N (acc.map (specScore wl wv)) ps := by
  induction ps with
  | nil => intro acc; rfl
  | cons p rest ih =>
      intro acc
      cases p with
      | mk i r =>
        rw [specSeed, seedFTS, ih, map_specSetKeyed]
        congr 2
        simp [specScore]

/-- Mapping `specScore` through the spec's vector-merge fold gives the
source's vector-merge fold. -/
theorem map_specVecFold (wl wv : ℚ) (V : List VectorMatch) :
    ∀ acc : List SpecEntry,
      (V.foldl specVecStep acc).map (specScore wl wv)
        = V.foldl (vecStep wl wv) (acc.map (specScore wl wv)) := by
  induction V with
  | nil => intro acc; rfl
  | cons v rest ih =>
      intro acc
      rw [List.foldl_cons, List.foldl_cons, ih, map_specVecStep]

/-- The source's `mergeAndScore` computes exactly the specification's
fusion algorithm `fuse`. -/
theorem mergeAndScore_eq_fuse (L : List FTSMatch) (V : List VectorMatch) (wl wv : ℚ) :
    mergeAndScore L V wl wv = fuse L V wl wv := by
  unfold mergeAndScore fuse
  rw [map_specVecFold, map_specSeed]
  rfl

/-- Every element of `insertDesc x l` is `x` or comes from `l`. -/
theorem mem_insertDesc {x y : FusedResult} {l : List FusedResult}
    (h : y ∈ insertDesc x l) : y = x ∨ y ∈ l := by
  induction l with
  | nil =>
      rw [insertDesc] at h
      rcases List.mem_singleton.1 h with rfl
      exact Or.inl rfl
  | cons z zs ih =>
      rw [insertDesc] at h
      by_cases hc : z.hybrid_score ≤ x.hybrid_score
      · rw [if_pos hc] at h
        rcases List.mem_cons.1 h with rfl | h
        · exact Or.inl rfl
        · exact Or.inr h
      · rw [if_neg hc] at h
        rcases List.mem_cons.1 h with rfl | h
        · exact Or.inr (List.mem_cons_self ..)
        · rcases ih h with rfl | h
          · exact Or.inl rfl
          · exact Or.inr (List.mem_cons_of_mem _ h)

/-- Inserting into a list sorted by hybrid score descending keeps it
sorted. -/
theorem pairwise_insertDesc {x : FusedResult} {l : List FusedResult}
    (h : l.Pairwise (fun a b => b.hybrid_score ≤ a.hybrid_score)) :
    (insertDesc x l).Pairwise (fun a b => b.hybrid_score ≤ a.hybrid_score) := by
  induction l with
  | nil => simp [insertDesc]
  | cons y ys ih =>
      rcases List.pairwise_cons.1 h with ⟨hy, hys⟩
      rw [insertDesc]
      by_cases hc : y.hybrid_score ≤ x.hybrid_score
      · rw [if_pos hc]
        refine List.pairwise_cons.2 ⟨?_, h⟩
        intro z hz
        rcases List.mem_cons.1 hz with rfl | hz
        · exact hc
        · exact le_trans (hy z hz) hc
      · rw [if_neg hc]
        refine List.pairwise_cons.2 ⟨?_, ih hys⟩
        intro z hz
        rcases mem_insertDesc hz with rfl | hz
        · exact le_of_not_le hc
        · exact hy z hz

/-- The output of `sortByHybridDesc` is sorted by hybrid score
descending. -/
theorem pairwise_sortByHybridDesc (l : List FusedResult) :
    (sortByHybridDesc l).Pairwise (fun a b => b.hybrid_score ≤ a.hybrid_score) := by
  induction l with
  | nil => simp [sortByHybridDesc]
  | cons x xs ih => exact pairwise_insertDesc ih

/-- `insertDesc x l` is a permutation of `x :: l`. -/
theorem insertDesc_perm (x : FusedResult) (l : List FusedResult) :
    List.Perm (insertDesc x l) (x :: l) := by
  induction l with
  | nil => rw [insertDesc]
  | cons y ys ih =>
      rw [insertDesc]
      by_cases hc : y.hybrid_score ≤ x.hybrid_score
      · rw [if_pos hc]
      · rw [if_neg hc]
        exact (ih.cons y).trans (List.Perm.swap x y ys)

/-- `sortByHybridDesc` permutes its input. -/
theorem sortByHybridDesc_perm (l : List FusedResult) :
    List.Perm (sortByHybridDesc l) l := by
  induction l with
  | nil => rw [sortByHybridDesc]
  | cons x xs ih => exact (insertDesc_perm x _).trans (ih.cons x)

/-- `setKeyed` preserves distinctness of the stored passage ids. -/
theorem keys_setKeyed_nodup {l : List FusedResult} (v : FusedResult)
    (h : (l.map FusedResult.id).Nodup) :
    ((setKeyed l v).map FusedResult.id).Nodup := by
  unfold setKeyed
  by_cases hc : l.any (fun x => x.id == v.id) = true
  · rw [if_pos hc, List.map_map]
    have : (FusedResult.id ∘ fun x => if x.id == v.id then v else x) = FusedResult.id := by
      funext x
      by_cases he : x.id = v.id
      · simp [Function.comp, he]
      · simp [Function.comp, he]
    rw [this]
    exact h
  · rw [if_neg hc, List.map_append]
    have hv : v.id ∉ l.map FusedResult.id := by
      intro hmem
      rcases List.mem_map.1 hmem with ⟨x, hx, hid⟩
      exact hc (List.any_eq_true.2 ⟨x, hx, by simp [hid]⟩)
    simp only [List.map_cons, List.map_nil]
    exact List.Nodup.append h (List.nodup_singleton _)
      (by
        intro a ha hb
        rcases List.mem_singleton.1 hb with rfl
        exact hv ha)

/-- `vecStep` preserves distinctness of the stored passage ids. -/
theorem keys_vecStep_nodup (wl wv : ℚ) {l : List FusedResult} (v : VectorMatch)
    (h : (l.map FusedResult.id).Nodup) :
    ((vecStep wl wv l v).map FusedResult.id).Nodup := by
  unfold vecStep
  by_cases hc : l.any (fun x => x.id == v.id) = true
  · rw [if_pos hc, List.map_map]
    have : (FusedResult.id ∘ fun x =>
        if x.id == v.id then
          { x with vector_score := v.similarity,
                   hybrid_score := wl * x.fts_score + wv * v.similarity }
        else x) = FusedResult.id := by
      funext x
      by_cases he : x.id = v.id
      · simp [Function.comp, he]
      · simp [Function.comp, he]
    rw [this]
    exact h
  · rw [if_neg hc, List.map_append]
    have hv : v.id ∉ l.map FusedResult.id := by
      intro hmem
      rcases List.mem_map.1 hmem with ⟨x, hx, hid⟩
      exact hc (List.any_eq_true.2 ⟨x, hx, by simp [hid]⟩)
    simp only [List.map_cons, List.map_nil]
    exact List.Nodup.append h (List.nodup_singleton _)
      (by
        intro a ha hb
        rcases List.mem_singleton.1 hb with rfl
        exact hv ha)

/-- The seeding loop preserves distinctness of the stored passage ids. -/
theorem keys_seedFTS_nodup (wl : ℚ) (N : Nat) (ps : List (Nat × FTSMatch)) :
    ∀ acc : List FusedResult, (acc.map FusedResult.id).Nodup →
      ((seedFTS wl N acc ps).map FusedResult.id).Nodup := by
  induction ps with
  | nil => intro acc h; exact h
  | cons p rest ih =>
      intro acc h
      cases p with
      | mk i r => exact ih _ (keys_setKeyed_nodup _ h)

/-- The vector-merge fold preserves distinctness of the stored ids. -/
theorem keys_vecFold_nodup (wl wv : ℚ) (V : List VectorMatch) :
    ∀ acc : List FusedResult, (acc.map FusedResult.id).Nodup →
      ((V.foldl (vecStep wl wv) acc).map FusedResult.id).Nodup := by
  induction V with
  | nil => intro acc h; exact h
  | cons v rest ih =>
      intro acc h
      exact ih _ (keys_vecStep_nodup wl wv v h)

/-- Every fused result of `mergeAndScore` satisfies the weighted-sum
hybrid-score equation. -/
theorem hybrid_eq_weighted (L : List FTSMatch) (V : List VectorMatch) (wl wv : ℚ) :
    ∀ r ∈ mergeAndScore L V wl wv,
      r.hybrid_score = wl * r.fts_score + wv * r.vector_score := by
  intro r hr
  rw [mergeAndScore_eq_fuse] at hr
  unfold fuse at hr
  have hr' := (sortByHybridDesc_perm _).mem_iff.1 hr
  rcases List.mem_map.1 hr' with ⟨e, _, rfl⟩
  rfl

/-- Every entry produced by `formatFallbackResults` has `vector_score` 0
and a hybrid score equal to its rank-decay FTS score. -/
theorem formatFallback_scores (l : List FTSMatch) :
    ∀ r ∈ formatFallbackResults l, r.hybrid_score = r.fts_score ∧ r.vector_score = 0 := by
  intro r hr
  rcases List.mem_map.1 hr with ⟨p, _, rfl⟩
  exact ⟨rfl, rfl⟩

/-- C1: `mergeAndScore` computes exactly the specification's fusion
algorithm `fuse` — each lexical match at rank r of N gets lexical score
max(0, 1 - r/N) and a seeded vector score 0, each vector match writes
its similarity into the entry with the same passage id or inserts a new
entry with lexical score 0, every hybrid score is the weighted sum, and
the output is sorted by hybrid score descending — and on Scenario A's
inputs it returns id 1 with hybrid score 0.95 followed by id 2 with
hybrid score 0.3. -/
theorem mergeAndScore_matches_spec_fusion :
    (∀ (L : List FTSMatch) (V : List VectorMatch) (wl wv : ℚ),
        mergeAndScore L V wl wv = fuse L V wl wv)
    ∧ (∀ (L : List FTSMatch) (V : List VectorMatch) (wl wv : ℚ),
        (mergeAndScore L V wl wv).Pairwise (fun a b => b.hybrid_score ≤ a.hybrid_score))
    ∧ mergeAndScore scnA_lex scnA_vec (1/2) (1/2)
        = [⟨1, 1, "AI is...", 1, 9/10, 19/20⟩, ⟨2, 2, "chunk2", 0, 6/10, 3/10⟩] := by
  refine ⟨mergeAndScore_eq_fuse, fun L V wl wv => ?_, by with_unfolding_all decide⟩
  exact pairwise_sortByHybridDesc _

/-- C4: for every pair of lexical and vector match lists, each passage
id appears at most once in the fused output. -/
theorem fused_ids_nodup :
    ∀ (L : List FTSMatch) (V : List VectorMatch) (wl wv : ℚ),
      ((mergeAndScore L V wl wv).map FusedResult.id).Nodup := by
  intro L V wl wv
  unfold mergeAndScore
  have hm := keys_vecFold_nodup wl wv V (seedFTS wl L.length [] L.enum)
    (keys_seedFTS_nodup wl L.length L.enum [] (by simp))
  exact (((sortByHybridDesc_perm _).map FusedResult.id).nodup_iff).2 hm

/-- C6: when query-embedding generation fails and the lexical executor
returns at least one match, the search still succeeds with exactly those
lexical matches as results, every result carrying vector score 0. -/
theorem embedding_failure_recoverable
    (q : String) (opts : SearchOptions) (env : SearchEnv) (msg : String)
    (hq : isBlankQuery q = false) (hemb : env.embedRes = CallRes.err msg)
    (hfb : opts.fallbackToFTSOnly = true) (hfts : env.ftsResults ≠ []) :
    (hybridSearch q opts env).1.success = true
    ∧ (hybridSearch q opts env).1.results = formatFallbackResults env.ftsResults
    ∧ ∀ r ∈ (hybridSearch q opts env).1.results, r.vector_score = 0 := by
  have hlen : ¬ env.ftsResults.length = 0 := by
    simpa [List.length_eq_zero] using hfts
  have hsucc : (hybridSearch q opts env).1.success = true := by
    simp only [hybridSearch, hq, Bool.false_eq_true, if_false, hemb, hfb, if_true, if_neg hlen]
  have hres : (hybridSearch q opts env).1.results = formatFallbackResults env.ftsResults := by
    simp only [hybridSearch, hq, Bool.false_eq_true, if_false, hemb, hfb, if_true, if_neg hlen]
  refine ⟨hsucc, hres, ?_⟩
  intro r hr
  rw [hres] at hr
  exact (formatFallback_scores env.ftsResults r hr).2

/-- Witness for C6 at Scenario B's shape: embedding down, two lexical
matches. -/
theorem embedding_failure_recoverable_witness :
    (isBlankQuery "ai" = false
      ∧ envLexOnly.embedRes
          = CallRes.err "Failed to generate query embedding: fetch failed"
      ∧ ({} : SearchOptions).fallbackToFTSOnly = true
      ∧ envLexOnly.ftsResults ≠ [])
    ∧ ((hybridSearch "ai" {} envLexOnly).1.success = true
      ∧ (hybridSearch "ai" {} envLexOnly).1.results
          = formatFallbackResults envLexOnly.ftsResults
      ∧ ∀ r ∈ (hybridSearch "ai" {} envLexOnly).1.results, r.vector_score = 0) :=
  ⟨⟨by decide, rfl, rfl, by decide⟩,
   embedding_failure_recoverable "ai" {} envLexOnly
     "Failed to generate query embedding: fetch failed" (by decide) rfl rfl (by decide)⟩

/-- C9: an empty (or all-whitespace) query returns at once with success,
no results, total 0 and an empty trace of external calls. -/
theorem empty_query_no_calls (q : String) (opts : SearchOptions) (env : SearchEnv)
    (hq : isBlankQuery q = true) :
    hybridSearch q opts env = (⟨true, "", [], 0, some "empty_query", none⟩, []) := by
  unfold hybridSearch
  rw [if_pos hq]

/-- Witness for C9 at the empty query. -/
theorem empty_query_no_calls_witness :
    (isBlankQuery "" = true)
    ∧ hybridSearch "" {} envEmbedOkEmpty
        = (⟨true, "", [], 0, some "empty_query", none⟩, []) :=
  ⟨by decide, empty_query_no_calls "" {} envEmbedOkEmpty (by decide)⟩

/-- C2 counterexample: on the lexical-fallback path with the default
weights 0.5/0.5, the top result carries lexical score 1, vector score 0
and hybrid score 1 — not the weighted sum 0.5, and the claimed equation
fails for every result of this outcome. -/
theorem fallback_hybrid_ignores_weights_cex :
    ((hybridSearch "ai" {} envLexOnly).1.results.map
        (fun r => (r.fts_score, r.vector_score, r.hybrid_score))).head? = some (1, 0, 1)
    ∧ ((hybridSearch "ai" {} envLexOnly).1.results.all
        (fun r => r.hybrid_score
          == ({} : SearchOptions).ftsWeight * r.fts_score
             + ({} : SearchOptions).vectorWeight * r.vector_score)) = false := by
  with_unfolding_all decide

/-- C2 (amended): on the fused (JavaScript-merge) path every result's
hybrid score is the weighted sum of its scores with the supplied
weights; on the embedding-failure fallback paths (lexical or document)
the hybrid score instead equals the bare rank-decay score and the
vector score is 0 — the weights are not applied there. -/
theorem hybrid_score_weighted_on_merge_and_fallback :
    (∀ (q : String) (opts : SearchOptions) (env : SearchEnv),
        env.embedRes = CallRes.ok () → opts.useSupabaseFunction = false →
        ∀ r ∈ (hybridSearch q opts env).1.results,
          r.hybrid_score = opts.ftsWeight * r.fts_score + opts.vectorWeight * r.vector_score)
    ∧ (∀ (q : String) (opts : SearchOptions) (env : SearchEnv) (msg : String),
        env.embedRes = CallRes.err msg → opts.fallbackToFTSOnly = true →
        ∀ r ∈ (hybridSearch q opts env).1.results,
          r.hybrid_score = r.fts_score ∧ r.vector_score = 0) := by
  constructor
  · intro q opts env hemb hsupa r hr
    by_cases hq : isBlankQuery q = true
    · simp [hybridSearch, hq] at hr
    · rw [Bool.not_eq_true] at hq
      by_cases hlen : env.ftsResults.length = 0
      · have hres : (hybridSearch q opts env).1.results
            = (mergeAndScore env.docResults env.vectorResults
                opts.ftsWeight opts.vectorWeight).take opts.limit := by
          simp only [hybridSearch, hq, Bool.false_eq_true, if_false, hemb, hsupa,
            if_pos hlen]
        rw [hres] at hr
        exact hybrid_eq_weighted _ _ _ _ r (List.take_subset _ _ hr)
      · have hres : (hybridSearch q opts env).1.results
            = (mergeAndScore env.ftsResults env.vectorResults
                opts.ftsWeight opts.vectorWeight).take opts.limit := by
          simp only [hybridSearch, hq, Bool.false_eq_true, if_false, hemb, hsupa,
            if_neg hlen]
        rw [hres] at hr
        exact hybrid_eq_weighted _ _ _ _ r (List.take_subset _ _ hr)
  · intro q opts env msg hemb hfb r hr
    by_cases hq : isBlankQuery q = true
    · simp [hybridSearch, hq] at hr
    · rw [Bool.not_eq_true] at hq
      by_cases hlen : env.ftsResults.length = 0
      · have hres : (hybridSearch q opts env).1.results
            = formatFallbackResults env.docResults := by
          simp only [hybridSearch, hq, Bool.false_eq_true, if_false, hemb, hfb,
            if_true, if_pos hlen]
        rw [hres] at hr
        exact formatFallback_scores env.docResults r hr
      · have hres : (hybridSearch q opts env).1.results
            = formatFallbackResults env.ftsResults := by
          simp only [hybridSearch, hq, Bool.false_eq_true, if_false, hemb, hfb,
            if_true, if_neg hlen]
        rw [hres] at hr
        exact formatFallback_scores env.ftsResults r hr

/-- Witness for the amended C2: the merge path on an environment with
vector results, and the fallback path on Scenario B's environment. -/
theorem hybrid_score_weighted_witness :
    (envDocWithVector.embedRes = CallRes.ok ()
      ∧ jsMergeOptions.useSupabaseFunction = false
      ∧ ∀ r ∈ (hybridSearch "ai" jsMergeOptions envDocWithVector).1.results,
          r.hybrid_score = jsMergeOptions.ftsWeight * r.fts_score
            + jsMergeOptions.vectorWeight * r.vector_score)
    ∧ (envLexOnly.embedRes
          = CallRes.err "Failed to generate query embedding: fetch failed"
      ∧ ({} : SearchOptions).fallbackToFTSOnly = true
      ∧ ∀ r ∈ (hybridSearch "ai" {} envLexOnly).1.results,
          r.hybrid_score = r.fts_score ∧ r.vector_score = 0) :=
  ⟨⟨rfl, rfl,
    hybrid_score_weighted_on_merge_and_fallback.1 "ai" jsMergeOptions envDocWithVector rfl rfl⟩,
   ⟨rfl, rfl,
    hybrid_score_weighted_on_merge_and_fallback.2 "ai" {} envLexOnly
      "Failed to generate query embedding: fetch failed" rfl rfl⟩⟩

/-- C3 counterexample: with embedding available and the JavaScript merge
path selected, lexical search returns nothing, the vector executor
returns a match (id 9), and yet document fallback is invoked and its
result (id 7) appears in the returned list next to the vector result. -/
theorem doc_fallback_despite_vector_results_cex :
    envDocWithVector.vectorResults ≠ []
    ∧ ExtCall.docSearch ∈ (hybridSearch "ai" jsMergeOptions envDocWithVector).2
    ∧ ((hybridSearch "ai" jsMergeOptions envDocWithVector).1.results.any
        (fun r => r.id == 7)) = true
    ∧ ((hybridSearch "ai" jsMergeOptions envDocWithVector).1.results.any
        (fun r => r.id == 9)) = true := by
  with_unfolding_all decide

/-- C3 (amended): document fallback is never invoked when the lexical
executor returned at least one result; but when lexical search is empty
the merge path does invoke it even though vector search produced
results. -/
theorem doc_fallback_not_invoked_when_lexical_nonempty
    (q : String) (opts : SearchOptions) (env : SearchEnv)
    (h : env.ftsResults ≠ []) :
    ExtCall.docSearch ∉ (hybridSearch q opts env).2 := by
  have hlen : ¬ env.ftsResults.length = 0 := by
    simpa [List.length_eq_zero] using h
  by_cases hq : isBlankQuery q = true
  · simp [hybridSearch, hq]
  · rw [Bool.not_eq_true] at hq
    cases henv : env.embedRes with
    | err msg =>
        by_cases hfb : opts.fallbackToFTSOnly = true
        · simp [hybridSearch, hq, henv, hfb, hlen, h]
        · simp [hybridSearch, hq, henv, hfb]
    | ok u =>
        by_cases hs : opts.useSupabaseFunction = true
        · cases hsup : env.supaResults with
          | ok rs => simp [hybridSearch, hq, henv, hs, hsup]
          | err m => simp [hybridSearch, hq, henv, hs, hsup]
        · simp [hybridSearch, hq, henv, hs, hlen, h]

/-- Witness for the amended C3: lexical results present, document
fallback not called. -/
theorem doc_fallback_not_invoked_witness :
    envLexOnly.ftsResults ≠ []
    ∧ ExtCall.docSearch ∉ (hybridSearch "ai" {} envLexOnly).2 :=
  ⟨by decide, doc_fallback_not_invoked_when_lexical_nonempty "ai" {} envLexOnly (by decide)⟩

/-- C7 counterexample: a completed empty-query attempt carries method
"empty_query", which is none of the five claimed values, and a completed
failed attempt carries no method field at all. -/
theorem method_values_cex :
    (hybridSearch "" {} envEmbedOkEmpty).1.method = some "empty_query"
    ∧ (hybridSearch "" {} envEmbedOkEmpty).1.method
        ∉ [some "fused", some "lexical-fallback", some "document-fallback",
           some "no-results", some "error"]
    ∧ (hybridSearch "ai" noFallbackOptions envLexOnly).1.success = false
    ∧ (hybridSearch "ai" noFallbackOptions envLexOnly).1.method = none := by
  decide

/-- C7 (amended): every successful outcome's method is one of exactly
"empty_query", "document_search_fallback", "no_results_found",
"supabase_function", "javascript_merge", and every failed outcome
carries no method field at all. -/
theorem method_value_set (q : String) (opts : SearchOptions) (env : SearchEnv) :
    ((hybridSearch q opts env).1.success = true →
      (hybridSearch q opts env).1.method
        ∈ [some "empty_query", some "document_search_fallback",
           some "no_results_found", some "supabase_function", some "javascript_merge"])
    ∧ ((hybridSearch q opts env).1.success = false →
      (hybridSearch q opts env).1.method = none) := by
  by_cases hq : isBlankQuery q = true
  · simp [hybridSearch, hq]
  · rw [Bool.not_eq_true] at hq
    cases henv : env.embedRes with
    | err msg =>
        by_cases hfb : opts.fallbackToFTSOnly = true
        · by_cases hlen : env.ftsResults.length = 0
          · by_cases hd : 0 < env.docResults.length
            · simp [hybridSearch, hq, henv, hfb, hlen, hd]
            · simp [hybridSearch, hq, henv, hfb, hlen, hd]
          · by_cases hd : 0 < env.ftsResults.length
            · simp [hybridSearch, hq, henv, hfb, hlen, hd]
            · simp [hybridSearch, hq, henv, hfb, hlen, hd]
        · simp [hybridSearch, hq, henv, hfb]
    | ok u =>
        by_cases hs : opts.useSupabaseFunction = true
        · cases hsup : env.supaResults with
          | ok rs => simp [hybridSearch, hq, henv, hs, hsup]
          | err m => simp [hybridSearch, hq, henv, hs, hsup]
        · by_cases hlen : env.ftsResults.length = 0
          · simp [hybridSearch, hq, henv, hs, hlen]
          · simp [hybridSearch, hq, henv, hs, hlen]

/-- Witness for the amended C7: a successful attempt (empty query,
method "empty_query") and a failed attempt (embedding failure with
fallbackToFTSOnly disabled, no method). -/
theorem method_value_set_witness :
    ((hybridSearch "" {} envEmbedOkEmpty).1.success = true
      ∧ (hybridSearch "" {} envEmbedOkEmpty).1.method
          ∈ [some "empty_query", some "document_search_fallback",
             some "no_results_found", some "supabase_function", some "javascript_merge"])
    ∧ ((hybridSearch "ai" noFallbackOptions envLexOnly).1.success = false
      ∧ (hybridSearch "ai" noFallbackOptions envLexOnly).1.method = none) :=
  ⟨⟨by decide, (method_value_set "" {} envEmbedOkEmpty).1 (by decide)⟩,
   ⟨by decide, (method_value_set "ai" noFallbackOptions envLexOnly).2 (by decide)⟩⟩

/-- C5: evaluating the interleaving "A starts, B starts (aborting A's
controller), B's call resolves and publishes, A's call resolves last"
shows the hook first publishes B's outcome and then overwrites it with
superseded A's outcome — A's resumption consults the abort-controller
ref, which B's completion already reset to null, instead of the
controller A created, so the stale outcome is published. -/
theorem stale_outcome_published_bug :
    hookStateAfterB.searchQuery = "beta"
    ∧ hookStateAfterB.searchResults = formatSearchResults outcomeB.results
    ∧ hookStateAfterStaleA.searchQuery = "alpha"
    ∧ hookStateAfterStaleA.searchQuery ≠ "beta"
    ∧ hookStateAfterStaleA.searchResults = formatSearchResults outcomeA.results := by
  refine ⟨rfl, rfl, rfl, by decide, rfl⟩

/-- The submit events of a list of debounced calls followed by the
expiry of the pending timer. -/
theorem runDebounce_submits (q : String) (o : SearchOptions)
    (cs : List (String × SearchOptions)) :
    ∀ st : DebounceState × List (String × SearchOptions),
      (((cs ++ [(q, o)]).map (fun c => DebounceEvent.submit c.1 c.2)).foldl debounceStep st)
        = (⟨some (q, o)⟩, st.2) := by
  induction cs with
  | nil => intro st; rfl
  | cons c rest ih =>
      intro st
      rw [List.cons_append, List.map_cons, List.foldl_cons]
      exact ih _

/-- C8: any number of debounced submit calls, each arriving before the
pending timer fires, followed by the single timer expiry, execute
exactly one search, with the query text and options of the last call. -/
theorem debounce_coalesces_to_last_call
    (calls : List (String × SearchOptions)) (q : String) (o : SearchOptions)
    (s : DebounceState) :
    runDebounce s
        (((calls ++ [(q, o)]).map (fun c => DebounceEvent.submit c.1 c.2))
          ++ [DebounceEvent.fire])
      = (⟨none⟩, [(q, o)]) := by
  unfold runDebounce
  rw [List.foldl_append, runDebounce_submits]
  rfl

/-- Positive scaling of both weights leaves `normalizeWeights`
unchanged. -/
theorem normalizeWeights_smul (a b k : ℚ) (hab : 0 < a + b) (hk : 0 < k) :
    normalizeWeights (k * a) (k * b) = normalizeWeights a b := by
  have hsum : k * a + k * b = k * (a + b) := by ring
  have hpos : 0 < k * (a + b) := mul_pos hk hab
  have hk0 : k ≠ 0 := ne_of_gt hk
  simp only [normalizeWeights, hsum, if_pos hpos, if_pos hab]
  rw [mul_div_mul_left a (a + b) hk0, mul_div_mul_left b (a + b) hk0]

/-- C10: `weightedSearch` issues the same `hybridSearch` call when both
weights are scaled by any positive factor (the weights are normalized by
their sum first), and when the weight sum is not positive both
normalized weights default to 0.5. -/
theorem weightedSearch_scale_invariant :
    (∀ (q : String) (a b k : ℚ) (opts : SearchOptions), 0 < a + b → 0 < k →
        weightedSearchCall q (k * a) (k * b) opts = weightedSearchCall q a b opts)
    ∧ (∀ a b : ℚ, a + b ≤ 0 → normalizeWeights a b = (1/2, 1/2)) := by
  constructor
  · intro q a b k opts hab hk
    unfold weightedSearchCall
    rw [normalizeWeights_smul a b k hab hk]
  · intro a b h
    simp only [normalizeWeights, if_neg (not_lt.2 h)]

/-- Witness for C10 with weights (1, 1) scaled by 2, and the degenerate
pair (-1, 0). -/
theorem weightedSearch_scale_invariant_witness :
    ((0:ℚ) < 1 + 1 ∧ (0:ℚ) < 2
      ∧ weightedSearchCall "q" (2 * 1) (2 * 1) ({} : SearchOptions)
          = weightedSearchCall "q" 1 1 {})
    ∧ ((-1:ℚ) + 0 ≤ 0 ∧ normalizeWeights (-1) 0 = (1/2, 1/2)) :=
  ⟨⟨by norm_num, by norm_num,
    weightedSearch_scale_invariant.1 "q" 1 1 2 {} (by norm_num) (by norm_num)⟩,
   ⟨by norm_num, weightedSearch_scale_invariant.2 (-1) 0 (by norm_num)⟩⟩
